import Mathlib

/-!
Verification development for a small HTTP/1.1 server (Rust sources
`src/http.rs`, `src/compression.rs`, `src/main.rs`).

The embedding below is a direct shallow translation of `src/http.rs`:

* Rust `String`/`&str` values become Lean `String`; the Rust standard-library
  string operations used by the source (`split(' ')`, `split_once(": ")`,
  `to_ascii_uppercase`, `to_lowercase`, `contains`, `strip_prefix`) are
  re-implemented structurally over `List Char` so that every definition is
  executable by kernel reduction.  The source's `to_lowercase` is Unicode
  aware; the per-character ASCII lowering used here coincides with it on the
  ASCII header names the server manipulates.
* Byte buffers (`Vec<u8>`, `BytesMut`) become `Bytes := List Nat`, each
  element a byte value.  UTF-8 encoding of a string is `utf8`, computed with
  core's `String.utf8EncodeChar`, matching Rust's `str::as_bytes`/`len`.
* The mutable buffered TCP reader of `Request::new` becomes explicit input:
  the request line as read (`read_line` keeps the trailing newline), the
  header-section lines as yielded by `lines()` (terminators stripped), and
  the raw bytes available after the header section; the unconsumed suffix of
  those bytes is returned alongside the parsed request, standing for the
  reader state after parsing.
* File-system access in `Request::handle` (`tokio::fs::read` / `fs::write`)
  becomes an explicit oracle `FsState` giving each path's readable content
  and whether a write to it succeeds, and `handle` additionally returns the
  list of file-system operations it performed.
* `anyhow` errors distinct from the two `RequestError` variants (a
  `content-length` value that fails integer parsing, an I/O failure while
  reading the declared body) are the two extra `ParseError` constructors.
* The `BytesMut` accumulation buffer inside `Response` is omitted: every
  `Response` the program builds starts from an empty buffer and is
  serialized exactly once, so `as_bytes` is the pure serialization function
  of the remaining fields.
-/

namespace HttpSrv

/-- Byte sequences (Rust `Vec<u8>` / `&[u8]`); each element is a byte value. -/
abbrev Bytes := List Nat

/-- UTF-8 bytes of a string, matching Rust `str::as_bytes`. -/
def utf8 (s : String) : Bytes :=
  (s.data.flatMap String.utf8EncodeChar).map UInt8.toNat

/-- ASCII upper-casing, matching Rust `str::to_ascii_uppercase`. -/
def asciiUpper (s : String) : String :=
  ⟨s.data.map Char.toUpper⟩

/-- ASCII lower-casing; the source uses `str::to_lowercase` (Unicode), which
agrees with this on ASCII strings. -/
def asciiLower (s : String) : String :=
  ⟨s.data.map Char.toLower⟩

/-- Helper for `splitSpace`: accumulates the current token (reversed). -/
def splitSpaceAux : List Char → List Char → List (List Char)
  | cur, [] => [cur.reverse]
  | cur, c :: cs =>
    if c = ' ' then cur.reverse :: splitSpaceAux [] cs
    else splitSpaceAux (c :: cur) cs

/-- Rust `str::split(' ')`: splits on every space, keeping empty tokens
(so `""` yields `[""]` and `" "` yields `["", ""]`). -/
def splitSpace (s : String) : List String :=
  (splitSpaceAux [] s.data).map fun l => ⟨l⟩

/-- Helper for `splitOnce`: splits at the first occurrence of `sep`. -/
def splitOnceAux (sep : List Char) : List Char → Option (List Char × List Char)
  | [] => none
  | c :: cs =>
    if sep.isPrefixOf (c :: cs) then some ([], (c :: cs).drop sep.length)
    else
      match splitOnceAux sep cs with
      | some (a, b) => some (c :: a, b)
      | none => none

/-- Rust `str::split_once`: splits at the first occurrence of the (non-empty
in all uses here) separator, or `none` when the separator does not occur. -/
def splitOnce (s sep : String) : Option (String × String) :=
  if sep.data = [] then some ("", s)
  else
    match splitOnceAux sep.data s.data with
    | some (a, b) => some (⟨a⟩, ⟨b⟩)
    | none => none

/-- Helper for `strContains`: does `pat` occur in the list? -/
def containsSub (pat : List Char) : List Char → Bool
  | [] => pat.isPrefixOf []
  | c :: t => pat.isPrefixOf (c :: t) || containsSub pat t

/-- Rust `str::contains` with a string pattern (substring test). -/
def strContains (s pat : String) : Bool :=
  containsSub pat.data s.data

/-- Rust `str::strip_prefix` (called `stripPref` here): the remainder after
the literal leading pattern, when the string starts with it. -/
def stripPref (s p : String) : Option String :=
  if p.data.isPrefixOf s.data then some ⟨s.data.drop p.data.length⟩ else none

/-- Rust `usize::from_str` as invoked by `content_length.parse()`: an
optional leading `+` followed by one or more ASCII digits (overflow, which
`Nat` does not exhibit, aside). -/
def parseUsize (s : String) : Option Nat :=
  let ds := if s.data.head? = some '+' then s.data.tail else s.data
  if ds ≠ [] ∧ ds.all (·.isDigit) then
    some (ds.foldl (fun n c => n * 10 + (c.toNat - 48)) 0)
  else none

/-- HTTP methods supported by the server (`enum Method` in `src/http.rs`). -/
inductive Method
  | GET
  | POST
deriving DecidableEq

/-- Translation of `Method::from` (the name `from` is reserved in Lean):
resolve the token case-insensitively via ASCII upper-casing; unknown tokens
are an error (`anyhow::bail!`), modelled as `none`. -/
def Method.fromStr (s : String) : Option Method :=
  if asciiUpper s = "GET" then some Method.GET
  else if asciiUpper s = "POST" then some Method.POST
  else none

/-- Response statuses (`enum Status` in `src/http.rs`). -/
inductive Status
  | OK
  | Created
  | BadRequest
  | NotFound
  | MethodNotAllowed
  | InternalServerError
deriving DecidableEq

/-- Parse-time failures surfaced by `Request::new`.  The first two are the
`RequestError` variants; the last two are the `anyhow` errors propagated by
`?` (a malformed `content-length` value, and an I/O failure of `read_exact`
while reading the declared body). -/
inductive ParseError
  | BadRequestError
  | MethodNotAllowedError
  | ContentLengthParseError
  | StreamError
deriving DecidableEq

/-- Header map of the request.  The source stores headers in a `HashMap`;
it is modelled as an association list where `insert` prepends and `get`
takes the first (most recently inserted) match, observationally equal to the
`HashMap`'s replace-on-insert semantics under `get`. -/
abbrev Headers := List (String × String)

/-- HashMap `insert`: the new binding shadows any older binding of the key. -/
def Headers.insert (hs : Headers) (k v : String) : Headers :=
  (k, v) :: hs

/-- HashMap `get`: the most recently inserted value for the key, if any. -/
def Headers.get (hs : Headers) (k : String) : Option String :=
  match hs with
  | [] => none
  | (k', v) :: t => if k' = k then some v else Headers.get t k

/-- Server configuration (`struct Config` in `src/http.rs`): the optional
file-serving directory from the `--directory` flag. -/
structure Config where
  files_dir : Option String
deriving DecidableEq

/-- Parsed request (`struct Request` in `src/http.rs`). -/
structure Request where
  config : Config
  http_version : String
  headers : Headers
  method : Method
  path : String
  content : Option Bytes
deriving DecidableEq

/-- Content-encoding decision (`enum Encoding` in `src/http.rs`). -/
inductive Encoding
  | none
  | gzip
deriving DecidableEq

/-- Translation of `Encoding::from`: gzip exactly when the supplied
`accept-encoding` header value contains the substring `"gzip"`. -/
def Encoding.fromOpt (o : Option String) : Encoding :=
  match o with
  | some e => if strContains e "gzip" then Encoding.gzip else Encoding.none
  | Option.none => Encoding.none

/-- Response builder (`struct Response` in `src/http.rs`), without the
`BytesMut` output buffer (see the module comment). -/
structure Response where
  status : Status
  content : Option Bytes
  content_type : String
  content_length : Nat
  encoding : Encoding
deriving DecidableEq

/-- Translation of `Response::new`. -/
def Response.new (status : Status) : Response :=
  { status := status, content := Option.none, content_type := "",
    content_length := 0, encoding := Encoding.none }

/-- Translation of `Response::text`: a `200 OK` with a UTF-8 text body;
`content_length` is the Rust byte length of the string. -/
def Response.text (content : String) (encoding : Option String) : Response :=
  { status := Status.OK, content := some (utf8 content),
    content_type := "text/plain", content_length := (utf8 content).length,
    encoding := Encoding.fromOpt encoding }

/-- Translation of `Response::binary`: a `200 OK` with a raw byte body. -/
def Response.binary (content : Bytes) (encoding : Option String) : Response :=
  { status := Status.OK, content := some content,
    content_type := "application/octet-stream",
    content_length := content.length, encoding := Encoding.fromOpt encoding }

/-- Status-line literals (the `STATUS_*` constants in `src/http.rs`). -/
def statusLine : Status → String
  | Status.OK => "200 OK"
  | Status.Created => "201 Created"
  | Status.BadRequest => "400 Bad Request"
  | Status.NotFound => "404 Not Found"
  | Status.MethodNotAllowed => "405 Method Not Allowed"
  | Status.InternalServerError => "500 Internal Server Error"

/-- Translation of `Response::as_bytes`: the exact sequence of
`extend_from_slice` calls on the output buffer. -/
def Response.as_bytes (r : Response) : Bytes :=
  utf8 "HTTP/1.1 " ++ utf8 (statusLine r.status) ++
    (match r.content with
     | some content =>
       (if r.encoding = Encoding.gzip then
          utf8 "\r\nContent-Encoding: " ++ utf8 "gzip"
        else []) ++
       (utf8 "\r\nContent-Type: " ++ utf8 r.content_type ++
        utf8 "\r\nContent-Length: " ++ utf8 (Nat.repr r.content_length) ++
        utf8 "\r\n\r\n" ++ content)
     | Option.none => utf8 "\r\n\r\n")

/-- Translation of the header loop of `Request::new`: consume lines, insert
every line containing `": "` (key ASCII-lowered, value verbatim), stop after
the first empty line (or at end of input).  Returns the accumulated map and
the unconsumed lines. -/
def parseHeaders : List String → Headers → Headers × List String
  | [], hs => (hs, [])
  | line :: rest, hs =>
    let hs' :=
      match splitOnce line ": " with
      | some (k, v) => Headers.insert hs (asciiLower k) v
      | Option.none => hs
    if line = "" then (hs', rest) else parseHeaders rest hs'

/-- Translation of the body-reading block of `Request::new`: when a
`content-length` header is present, parse it (failure is fatal) and take
exactly that many bytes from the stream (`read_exact`; too few available
bytes is a fatal stream error); otherwise read nothing. -/
def readBody (hs : Headers) (rest : Bytes) :
    Except ParseError (Option Bytes × Bytes) :=
  match Headers.get hs "content-length" with
  | Option.none => Except.ok (Option.none, rest)
  | some cl =>
    match parseUsize cl with
    | Option.none => Except.error ParseError.ContentLengthParseError
    | some n =>
      if n ≤ rest.length then Except.ok (some (rest.take n), rest.drop n)
      else Except.error ParseError.StreamError

/-- Translation of `Request::new`.  Input: the request line as read by
`read_line` (trailing newline included), the header-section lines as yielded
by `lines()` (terminators stripped), the bytes available after the header
section, and the shared config.  Output: the request together with the
unconsumed byte suffix, or a classified error. -/
def Request.new (requestLine : String) (headerLines : List String)
    (rest : Bytes) (config : Config) :
    Except ParseError (Request × Bytes) :=
  match splitSpace requestLine with
  | [methodStr, path, httpVersion] =>
    match Method.fromStr methodStr with
    | Option.none => Except.error ParseError.MethodNotAllowedError
    | some method =>
      match readBody (parseHeaders headerLines []).1 rest with
      | Except.error e => Except.error e
      | Except.ok (content, left) =>
        Except.ok
          ({ config := config, http_version := httpVersion,
             headers := (parseHeaders headerLines []).1,
             method := method, path := path, content := content }, left)
  | _ => Except.error ParseError.BadRequestError

/-- File-system oracle for `Request::handle`: `read p` is the content
`tokio::fs::read(p)` would return (`none` = read failure), `writeOk p` is
whether `tokio::fs::write(p, _)` succeeds. -/
structure FsState where
  read : String → Option Bytes
  writeOk : String → Bool

/-- File-system operations performed by `Request::handle`. -/
inductive FsEffect
  | read (path : String)
  | write (path : String) (content : Bytes)
deriving DecidableEq

/-- Rust `PathBuf::push` on string paths: an absolute component replaces the
whole path, otherwise the component is appended with a `/` separator. -/
def pathPush (base name : String) : String :=
  if "/".data.isPrefixOf name.data then name
  else if "/".data.isSuffixOf base.data then base ++ name
  else base ++ "/" ++ name

/-- Translation of `Request::handle`: the routing logic of `src/http.rs`
lines 124–202, with file-system access through the `FsState` oracle and the
performed file operations reported alongside the response. -/
def Request.handle (r : Request) (fs : FsState) : Response × List FsEffect :=
  let encoding := Headers.get r.headers "accept-encoding"
  if r.path = "/" then
    if r.method ≠ Method.GET then (Response.new Status.MethodNotAllowed, [])
    else (Response.new Status.OK, [])
  else
    match stripPref r.path "/echo/" with
    | some echo =>
      if r.method ≠ Method.GET then (Response.new Status.MethodNotAllowed, [])
      else (Response.text echo encoding, [])
    | Option.none =>
      if (stripPref r.path "/user-agent").isSome then
        if r.method ≠ Method.GET then (Response.new Status.MethodNotAllowed, [])
        else
          let agent :=
            match Headers.get r.headers "user-agent" with
            | some a => a
            | Option.none => "User-Agent header is missing"
          (Response.text agent encoding, [])
      else
        match stripPref r.path "/files/" with
        | some filename =>
          match r.method with
          | Method.GET =>
            match r.config.files_dir with
            | some filedir =>
              let filepath := pathPush filedir filename
              match fs.read filepath with
              | some content =>
                (Response.binary content encoding, [FsEffect.read filepath])
              | Option.none =>
                (Response.new Status.NotFound, [FsEffect.read filepath])
            | Option.none => (Response.new Status.NotFound, [])
          | Method.POST =>
            match r.config.files_dir with
            | some filedir =>
              let filepath := pathPush filedir filename
              match r.content with
              | some content =>
                if fs.writeOk filepath then
                  (Response.new Status.Created, [FsEffect.write filepath content])
                else
                  (Response.new Status.InternalServerError,
                   [FsEffect.write filepath content])
              | Option.none => (Response.new Status.Created, [])
            | Option.none => (Response.new Status.InternalServerError, [])
        | Option.none => (Response.new Status.NotFound, [])

/-- Projection of a response to the triple the routing table of spec §4.2
describes: status, body, and content type. -/
def respSummary (r : Response) : Status × Option Bytes × String :=
  (r.status, r.content, r.content_type)

/-- Spec-side definition, for refinement comparison only (it follows the
words of spec §4.2, not the source): the routing table, read top to bottom,
first match wins; each row yields the response's status, body and content
type.  The table's "write failure → InternalServerError" can only arise
when the request carries a body to write; when no body is present nothing
is written and the row yields `Created` (the frame side of that case is a
separate claim). -/
def routeTableSpec (r : Request) (fs : FsState) : Status × Option Bytes × String :=
  if r.path = "/" then
    if r.method = Method.GET then (Status.OK, Option.none, "")
    else (Status.MethodNotAllowed, Option.none, "")
  else
    match stripPref r.path "/echo/" with
    | some rest =>
      if r.method = Method.GET then (Status.OK, some (utf8 rest), "text/plain")
      else (Status.MethodNotAllowed, Option.none, "")
    | Option.none =>
      if (stripPref r.path "/user-agent").isSome then
        if r.method = Method.GET then
          match Headers.get r.headers "user-agent" with
          | some agent => (Status.OK, some (utf8 agent), "text/plain")
          | Option.none =>
            (Status.OK, some (utf8 "User-Agent header is missing"), "text/plain")
        else (Status.MethodNotAllowed, Option.none, "")
      else
        match stripPref r.path "/files/" with
        | some name =>
          match r.method, r.config.files_dir with
          | Method.GET, Option.none => (Status.NotFound, Option.none, "")
          | Method.GET, some dir =>
            match fs.read (pathPush dir name) with
            | some bytes => (Status.OK, some bytes, "application/octet-stream")
            | Option.none => (Status.NotFound, Option.none, "")
          | Method.POST, Option.none =>
            (Status.InternalServerError, Option.none, "")
          | Method.POST, some dir =>
            match r.content with
            | some _ =>
              if fs.writeOk (pathPush dir name) then
                (Status.Created, Option.none, "")
              else (Status.InternalServerError, Option.none, "")
            | Option.none => (Status.Created, Option.none, "")
        | Option.none => (Status.NotFound, Option.none, "")

/-- Spec-side reading of §4.1 step 3: what a single header line contributes
for a given (already lower-case) key — lines splitting on `": "` with
lower-cased left part equal to the key contribute their right part
verbatim, all other lines contribute nothing. -/
def lineVal (k : String) (line : String) : Option String :=
  match splitOnce line ": " with
  | some (a, b) => if asciiLower a = k then some b else Option.none
  | Option.none => Option.none

/-- Spec-side reading of the header-map contract (§3): the value bound to a
key by a list of header lines — later lines take precedence (duplicate
names: last wins), lines without the separator are skipped. -/
def headerValueSpec (k : String) : List String → Option String
  | [] => Option.none
  | l :: rest => (headerValueSpec k rest).or (lineVal k l)

/-- Decidable equality of `Except` results, for concrete evaluations. -/
instance {ε α : Type} [DecidableEq ε] [DecidableEq α] :
    DecidableEq (Except ε α) := fun a b =>
  match a, b with
  | Except.error e, Except.error e' =>
    if h : e = e' then Decidable.isTrue (by rw [h])
    else Decidable.isFalse (by simp [h])
  | Except.ok x, Except.ok y =>
    if h : x = y then Decidable.isTrue (by rw [h])
    else Decidable.isFalse (by simp [h])
  | Except.error _, Except.ok _ => Decidable.isFalse (by simp)
  | Except.ok _, Except.error _ => Decidable.isFalse (by simp)

/-- File-system oracle on which every read fails and every write fails:
used for evaluating routes that never touch the file system. -/
def fsEmpty : FsState :=
  { read := fun _ => Option.none, writeOk := fun _ => false }

/-- Concrete request: `GET /echo/abc` with header `accept-encoding: gzip`. -/
def gzipEchoRequest : Request :=
  { config := ⟨Option.none⟩, http_version := "HTTP/1.1\r\n",
    headers := [("accept-encoding", "gzip")], method := Method.GET,
    path := "/echo/abc", content := Option.none }

/-- File-system oracle with one readable file `/tmp/a.txt` (bytes `hi`) and
all writes succeeding. -/
def filesFs : FsState :=
  { read := fun p => if p = "/tmp/a.txt" then some [104, 105] else Option.none,
    writeOk := fun _ => true }

/-- Concrete request: `GET /files/a.txt` with directory `/tmp` configured. -/
def filesGetRequest : Request :=
  { config := ⟨some "/tmp"⟩, http_version := "HTTP/1.1\r\n", headers := [],
    method := Method.GET, path := "/files/a.txt", content := Option.none }

/-- Concrete request: `POST /files/a.txt` with body `hi` and directory
`/tmp` configured. -/
def filesPostRequest : Request :=
  { config := ⟨some "/tmp"⟩, http_version := "HTTP/1.1\r\n", headers := [],
    method := Method.POST, path := "/files/a.txt", content := some [104, 105] }

/-- Concrete request: `POST /files/b.txt` without a body, directory `/tmp`
configured. -/
def filesPostNoBodyRequest : Request :=
  { config := ⟨some "/tmp"⟩, http_version := "HTTP/1.1\r\n", headers := [],
    method := Method.POST, path := "/files/b.txt", content := Option.none }

/-- Concrete request: `GET /files/a.txt` with no directory configured. -/
def filesNoDirRequest : Request :=
  { config := ⟨Option.none⟩, http_version := "HTTP/1.1\r\n", headers := [],
    method := Method.GET, path := "/files/a.txt", content := Option.none }

/-- Concrete request: `POST /files/a.txt` with no directory configured. -/
def filesNoDirPostRequest : Request :=
  { config := ⟨Option.none⟩, http_version := "HTTP/1.1\r\n", headers := [],
    method := Method.POST, path := "/files/a.txt", content := some [104, 105] }

/-! Helper lemmas shared by the claim theorems. -/

/-- Splitting `utf8` over string concatenation. -/
theorem utf8_append (a b : String) : utf8 (a ++ b) = utf8 a ++ utf8 b := by
  simp [utf8, String.data_append]

/-- A boolean prefix test certifies the prefix decomposition. -/
theorem isPrefixOf_append {l₁ l₂ : List Char} (h : l₁.isPrefixOf l₂) :
    l₂ = l₁ ++ l₂.drop l₁.length := by
  rw [ List.isPrefixOf_iff_prefix] at h
  obtain ⟨t, rfl⟩ := h
  rw [List.drop_left]

/-- A successful `stripPref` certifies the decomposition of the string. -/
theorem stripPref_data {s p t : String} (h : stripPref s p = some t) :
    s.data = p.data ++ t.data := by
  unfold stripPref at h
  split at h
  · cases h
    exact isPrefixOf_append (by assumption)
  · cases h

/-- A path under `/files/` is not the root path. -/
theorem files_path_ne_root {path name : String}
    (hp : path.data = "/files/".data ++ name.data) : path ≠ "/" := by
  intro e
  rw [e] at hp
  have := congrArg List.length hp
  simp at this

/-- A path under `/files/` does not start with `/echo/`. -/
theorem files_path_echo_none {path name : String}
    (hp : path.data = "/files/".data ++ name.data) :
    stripPref path "/echo/" = Option.none := by
  have h : "/echo/".data.isPrefixOf path.data = false := by rw [hp]; rfl
  unfold stripPref
  rw [h]
  simp

/-- A path under `/files/` does not start with `/user-agent`. -/
theorem files_path_userAgent_none {path name : String}
    (hp : path.data = "/files/".data ++ name.data) :
    stripPref path "/user-agent" = Option.none := by
  have h : "/user-agent".data.isPrefixOf path.data = false := by rw [hp]; rfl
  unfold stripPref
  rw [h]
  simp

/-- C1: evaluation of the code at a gzip-negotiating request.  For
`GET /echo/abc` with `accept-encoding: gzip` the server emits a
`Content-Encoding: gzip` header, yet the transmitted body bytes are the raw
body `abc` (bytes `[97, 98, 99]`, not a gzip stream, which would begin with
the magic byte `0x1f`) and the emitted `Content-Length` is 3, the raw
length: `as_bytes` never invokes the compression codec. -/
theorem c1_gzip_header_but_raw_body :
    (Request.handle gzipEchoRequest fsEmpty).1 = Response.text "abc" (some "gzip") ∧
    (Response.text "abc" (some "gzip")).encoding = Encoding.gzip ∧
    (Response.text "abc" (some "gzip")).content = some (utf8 "abc") ∧
    (Response.text "abc" (some "gzip")).content_length = 3 ∧
    Response.as_bytes (Response.text "abc" (some "gzip")) =
      utf8 "HTTP/1.1 200 OK\r\nContent-Encoding: gzip\r\nContent-Type: text/plain\r\nContent-Length: 3\r\n\r\nabc" ∧
    utf8 "abc" = [97, 98, 99] := by
  refine ⟨?_, ?_, ?_, ?_, ?_, ?_⟩ <;> decide

/-- C7: the serializer emits exactly `HTTP/1.1 `, the literal status-line
string, then — when a body is present — the optional
`Content-Encoding: gzip` header, `Content-Type`, `Content-Length`, a blank
line, and the body bytes, in that order; with no body the output is exactly
`HTTP/1.1 <status-line>\r\n\r\n` with no headers; the status-line literals
are those of the table. -/
theorem c7_serializer_wire_format (r : Response) :
    (r.content = Option.none →
      Response.as_bytes r = utf8 ("HTTP/1.1 " ++ statusLine r.status ++ "\r\n\r\n")) ∧
    (∀ c, r.content = some c →
      Response.as_bytes r =
        utf8 ("HTTP/1.1 " ++ statusLine r.status) ++
        (if r.encoding = Encoding.gzip then utf8 "\r\nContent-Encoding: gzip" else []) ++
        utf8 ("\r\nContent-Type: " ++ r.content_type ++ "\r\nContent-Length: " ++
              Nat.repr r.content_length ++ "\r\n\r\n") ++ c) ∧
    statusLine Status.OK = "200 OK" ∧
    statusLine Status.Created = "201 Created" ∧
    statusLine Status.BadRequest = "400 Bad Request" ∧
    statusLine Status.NotFound = "404 Not Found" ∧
    statusLine Status.MethodNotAllowed = "405 Method Not Allowed" ∧
    statusLine Status.InternalServerError = "500 Internal Server Error" := by
  have henc : utf8 "\r\nContent-Encoding: " ++ utf8 "gzip" =
      utf8 "\r\nContent-Encoding: gzip" := by decide
  refine ⟨?_, ?_, rfl, rfl, rfl, rfl, rfl, rfl⟩
  · intro h
    simp [Response.as_bytes, h, utf8_append, List.append_assoc]
  · intro c h
    by_cases he : r.encoding = Encoding.gzip <;>
      simp [Response.as_bytes, h, he, ← henc, utf8_append, List.append_assoc]

/-- C7 witness: the serializer equations instantiated at a body-less 404
response and at a `text/plain` body-carrying response. -/
theorem c7_serializer_wire_format_witness :
    Response.as_bytes (Response.new Status.NotFound) =
      utf8 ("HTTP/1.1 " ++ statusLine Status.NotFound ++ "\r\n\r\n") ∧
    Response.as_bytes (Response.text "hi" (some "gzip")) =
      utf8 ("HTTP/1.1 " ++ statusLine (Response.text "hi" (some "gzip")).status) ++
      (if (Response.text "hi" (some "gzip")).encoding = Encoding.gzip then
         utf8 "\r\nContent-Encoding: gzip"
       else []) ++
      utf8 ("\r\nContent-Type: " ++ (Response.text "hi" (some "gzip")).content_type ++
            "\r\nContent-Length: " ++
            Nat.repr (Response.text "hi" (some "gzip")).content_length ++
            "\r\n\r\n") ++ utf8 "hi" :=
  ⟨(c7_serializer_wire_format (Response.new Status.NotFound)).1 rfl,
   (c7_serializer_wire_format (Response.text "hi" (some "gzip"))).2.1 (utf8 "hi") rfl⟩

/-- Body reading only fails with the two fatal error kinds. -/
theorem readBody_error_kinds {hs : Headers} {rest : Bytes} {e : ParseError}
    (h : readBody hs rest = Except.error e) :
    e = ParseError.ContentLengthParseError ∨ e = ParseError.StreamError := by
  unfold readBody at h
  split at h
  · cases h
  · split at h
    · cases h
      exact Or.inl rfl
    · split at h
      · cases h
      · cases h
        exact Or.inr rfl

/-- C3: a request line whose space-split does not yield exactly 3 tokens
fails parsing with `BadRequestError`; with exactly 3 tokens parsing never
reports `BadRequestError`, and a successfully parsed request binds the
tokens as method, path, and HTTP version respectively. -/
theorem c3_request_line_tokens (rl : String) (ls : List String) (rest : Bytes)
    (cfg : Config) :
    ((splitSpace rl).length ≠ 3 →
      Request.new rl ls rest cfg = Except.error ParseError.BadRequestError) ∧
    (∀ m p v, splitSpace rl = [m, p, v] →
      Request.new rl ls rest cfg ≠ Except.error ParseError.BadRequestError ∧
      ∀ req left, Request.new rl ls rest cfg = Except.ok (req, left) →
        Method.fromStr m = some req.method ∧ req.path = p ∧
        req.http_version = v) := by
  constructor
  · intro hlen
    unfold Request.new
    rcases hs : splitSpace rl with _ | ⟨a, _ | ⟨b, _ | ⟨c, _ | ⟨d, t⟩⟩⟩⟩
    · rfl
    · rfl
    · rfl
    · rw [hs] at hlen
      simp at hlen
    · rfl
  · intro m p v hs
    constructor
    · intro contra
      unfold Request.new at contra
      split at contra
      · split at contra
        · simp at contra
        · split at contra
          · rename_i e heq2
            simp only [Except.error.injEq] at contra
            rcases readBody_error_kinds heq2 with h | h <;>
              rw [contra] at h <;> exact absurd h (by decide)
          · simp at contra
      · rename_i hne
        exact absurd hs (hne m p v)
    · intro req left hok
      unfold Request.new at hok
      split at hok
      · rename_i methodStr path httpVersion heq
        rw [hs] at heq
        obtain ⟨rfl, rfl, rfl⟩ : m = methodStr ∧ p = path ∧ v = httpVersion := by
          simpa using heq
        split at hok
        · cases hok
        · rename_i mth hm
          split at hok
          · cases hok
          · simp only [Except.ok.injEq, Prod.mk.injEq] at hok
            obtain ⟨rfl, -⟩ := hok
            exact ⟨hm, rfl, rfl⟩
      · rename_i hne
        exact absurd hs (hne m p v)

/-- C3 witness: a 2-token request line is rejected as `BadRequestError`; a
3-token line parses with the tokens bound as method, path, and version. -/
theorem c3_request_line_tokens_witness :
    Request.new "GET /\r\n" [] [] ⟨Option.none⟩ =
      Except.error ParseError.BadRequestError ∧
    (Method.fromStr "GET" =
      some ({ config := ⟨Option.none⟩, http_version := "HTTP/1.1\r\n",
              headers := [], method := Method.GET, path := "/abc",
              content := Option.none } : Request).method ∧
     ({ config := ⟨Option.none⟩, http_version := "HTTP/1.1\r\n",
        headers := [], method := Method.GET, path := "/abc",
        content := Option.none } : Request).path = "/abc" ∧
     ({ config := ⟨Option.none⟩, http_version := "HTTP/1.1\r\n",
        headers := [], method := Method.GET, path := "/abc",
        content := Option.none } : Request).http_version = "HTTP/1.1\r\n") :=
  ⟨(c3_request_line_tokens "GET /\r\n" [] [] ⟨Option.none⟩).1 (by decide),
   ((c3_request_line_tokens "GET /abc HTTP/1.1\r\n" [] [] ⟨Option.none⟩).2
      "GET" "/abc" "HTTP/1.1\r\n" (by decide)).2 _ [] (by decide)⟩

/-- C4: the method token is resolved through ASCII upper-casing against
`{GET, POST}` (so resolution is case-insensitive), any other token makes
parsing fail with `MethodNotAllowedError`, and that error is distinct from
the malformed-request-line `BadRequestError`. -/
theorem c4_method_resolution (s rl : String) (ls : List String) (rest : Bytes)
    (cfg : Config) (m p v : String) :
    (Method.fromStr s = some Method.GET ↔ asciiUpper s = "GET") ∧
    (Method.fromStr s = some Method.POST ↔ asciiUpper s = "POST") ∧
    (Method.fromStr s = Option.none ↔
      (asciiUpper s ≠ "GET" ∧ asciiUpper s ≠ "POST")) ∧
    (splitSpace rl = [m, p, v] → Method.fromStr m = Option.none →
      Request.new rl ls rest cfg = Except.error ParseError.MethodNotAllowedError) ∧
    ParseError.MethodNotAllowedError ≠ ParseError.BadRequestError := by
  refine ⟨?_, ?_, ?_, ?_, by decide⟩
  · unfold Method.fromStr
    by_cases h1 : asciiUpper s = "GET" <;> by_cases h2 : asciiUpper s = "POST" <;>
      simp [h1, h2]
  · unfold Method.fromStr
    by_cases h1 : asciiUpper s = "GET" <;> by_cases h2 : asciiUpper s = "POST" <;>
      simp [h1, h2]
  · unfold Method.fromStr
    by_cases h1 : asciiUpper s = "GET" <;> by_cases h2 : asciiUpper s = "POST" <;>
      simp [h1, h2]
  · intro hs hm
    unfold Request.new
    split
    · rename_i methodStr path httpVersion heq
      rw [hs] at heq
      obtain ⟨rfl, rfl, rfl⟩ : m = methodStr ∧ p = path ∧ v = httpVersion := by
        simpa using heq
      rw [hm]
    · rename_i hne
      exact absurd hs (hne m p v)

/-- C4 witness: `get` and `Post` resolve case-insensitively, `PATCH` makes
parsing fail with `MethodNotAllowedError`. -/
theorem c4_method_resolution_witness :
    Method.fromStr "get" = some Method.GET ∧
    Method.fromStr "Post" = some Method.POST ∧
    Request.new "PATCH / HTTP/1.1\r\n" [] [] ⟨Option.none⟩ =
      Except.error ParseError.MethodNotAllowedError :=
  ⟨(c4_method_resolution "get" "" [] [] ⟨Option.none⟩ "" "" "").1.mpr (by decide),
   (c4_method_resolution "Post" "" [] [] ⟨Option.none⟩ "" "" "").2.1.mpr (by decide),
   (c4_method_resolution "" "PATCH / HTTP/1.1\r\n" [] [] ⟨Option.none⟩
      "PATCH" "/" "HTTP/1.1\r\n").2.2.2.1 (by decide) (by decide)⟩

/-- The header loop consumes exactly the lines up to and including the
first empty line. -/
theorem parseHeaders_stop (pre post : List String) (hs : Headers)
    (hpre : "" ∉ pre) : (parseHeaders (pre ++ "" :: post) hs).2 = post := by
  induction pre generalizing hs with
  | nil => rfl
  | cons l pre ih =>
    have hl : l ≠ "" := fun e => hpre (by simp [e])
    have hpre' : "" ∉ pre := fun h => hpre (List.mem_cons_of_mem _ h)
    rw [List.cons_append]
    simp only [parseHeaders, hl, if_false]
    exact ih _ hpre'

/-- Value lookup after the header loop: the lines before the first empty
line are consulted with later lines taking precedence, falling back to the
accumulator map. -/
theorem parseHeaders_get_or (pre post : List String) (hs : Headers)
    (k : String) (hpre : "" ∉ pre) :
    Headers.get (parseHeaders (pre ++ "" :: post) hs).1 k =
      (headerValueSpec k pre).or (Headers.get hs k) := by
  induction pre generalizing hs with
  | nil =>
    have h0 : splitOnce "" ": " = Option.none := rfl
    simp [parseHeaders, headerValueSpec, h0]
  | cons l pre ih =>
    have hl : l ≠ "" := fun e => hpre (by simp [e])
    have hpre' : "" ∉ pre := fun h => hpre (List.mem_cons_of_mem _ h)
    rw [List.cons_append, headerValueSpec]
    cases hsp : splitOnce l ": " with
    | none =>
      have hlv : lineVal k l = Option.none := by simp [lineVal, hsp]
      have hstep : parseHeaders (l :: (pre ++ "" :: post)) hs =
          parseHeaders (pre ++ "" :: post) hs := by
        simp [parseHeaders, hsp, hl]
      rw [hstep, ih _ hpre', hlv, Option.or_none]
    | some kv =>
      obtain ⟨a, b⟩ := kv
      have hstep : parseHeaders (l :: (pre ++ "" :: post)) hs =
          parseHeaders (pre ++ "" :: post) (Headers.insert hs (asciiLower a) b) := by
        simp [parseHeaders, hsp, hl]
      rw [hstep, ih _ hpre']
      by_cases hk : asciiLower a = k
      · have hlv : lineVal k l = some b := by simp [lineVal, hsp, hk]
        have hget : Headers.get (Headers.insert hs (asciiLower a) b) k = some b := by
          simp [Headers.get, Headers.insert, hk]
        rw [hlv, hget, Option.or_assoc, Option.or_some]
      · have hlv : lineVal k l = Option.none := by simp [lineVal, hsp, hk]
        have hget : Headers.get (Headers.insert hs (asciiLower a) b) k =
            Headers.get hs k := by
          simp [Headers.get, Headers.insert, hk]
        rw [hlv, hget, Option.or_none]

/-- C5: the header loop reads lines until the first empty line (lines after
it are untouched); a line containing `": "` is split at its first
occurrence, the left part lower-cased becoming the key and the right part
kept verbatim; lines without the separator are skipped without error; and a
key occurring in several lines is bound to the last occurrence's value. -/
theorem c5_header_parsing (pre post : List String) (k : String)
    (hpre : "" ∉ pre) :
    (parseHeaders (pre ++ "" :: post) []).2 = post ∧
    Headers.get (parseHeaders (pre ++ "" :: post) []).1 k =
      headerValueSpec k pre := by
  refine ⟨parseHeaders_stop pre post [] hpre, ?_⟩
  rw [parseHeaders_get_or pre post [] k hpre,
      show Headers.get [] k = Option.none from rfl, Option.or_none]

/-- C5 witness: with header lines `Accept: x`, `ACCEPT: y`, a line without
separator, a blank line, and a trailing line, the loop stops at the blank
line and the key `accept` is bound to the later value `y`. -/
theorem c5_header_parsing_witness :
    (parseHeaders (["Accept: x", "ACCEPT: y", "no separator here"] ++
      "" :: ["Tail: z"]) []).2 = ["Tail: z"] ∧
    Headers.get (parseHeaders (["Accept: x", "ACCEPT: y", "no separator here"] ++
      "" :: ["Tail: z"]) []).1 "accept" = some "y" := by
  have h := c5_header_parsing ["Accept: x", "ACCEPT: y", "no separator here"]
    ["Tail: z"] "accept" (by decide)
  exact ⟨h.1, h.2.trans (by decide)⟩

/-- Inversion of a successful body read: no `content-length` header means
no bytes consumed; a `content-length` header means it parsed and exactly
that many bytes were taken from the stream. -/
theorem readBody_ok {hs : Headers} {rest : Bytes} {content : Option Bytes}
    {left : Bytes} (h : readBody hs rest = Except.ok (content, left)) :
    (Headers.get hs "content-length" = Option.none →
      content = Option.none ∧ left = rest) ∧
    (∀ cl, Headers.get hs "content-length" = some cl →
      ∃ n, parseUsize cl = some n ∧ n ≤ rest.length ∧
        content = some (rest.take n) ∧ left = rest.drop n) := by
  unfold readBody at h
  split at h
  · rename_i hcl
    simp only [Except.ok.injEq, Prod.mk.injEq] at h
    obtain ⟨rfl, rfl⟩ := h
    refine ⟨fun _ => ⟨rfl, rfl⟩, fun cl hcl2 => ?_⟩
    rw [hcl] at hcl2
    cases hcl2
  · rename_i cl hcl
    split at h
    · cases h
    · rename_i n hn
      split at h
      · rename_i hle
        simp only [Except.ok.injEq, Prod.mk.injEq] at h
        obtain ⟨rfl, rfl⟩ := h
        constructor
        · intro h0
          rw [hcl] at h0
          cases h0
        · intro cl' hcl'
          rw [hcl] at hcl'
          obtain rfl : cl = cl' := by injection hcl'
          exact ⟨n, hn, hle, rfl, rfl⟩
      · cases h

/-- C6: for a successfully parsed request the body is present iff a
`content-length` header was supplied, in which case its byte length equals
the parsed value and exactly that many bytes are consumed from the stream;
without the header no body bytes are consumed even when more bytes remain;
and a non-numeric `content-length` makes parsing fail with a fatal error
distinct from `BadRequestError` and `MethodNotAllowedError`. -/
theorem c6_body_iff_content_length (rl : String) (ls : List String)
    (rest : Bytes) (cfg : Config) :
    (∀ req left, Request.new rl ls rest cfg = Except.ok (req, left) →
      (Headers.get req.headers "content-length" = Option.none →
        req.content = Option.none ∧ left = rest) ∧
      (∀ cl, Headers.get req.headers "content-length" = some cl →
        ∃ n, parseUsize cl = some n ∧ ∃ b, req.content = some b ∧
          b.length = n ∧ left = rest.drop n)) ∧
    (∀ m p v cl, splitSpace rl = [m, p, v] → (Method.fromStr m).isSome →
      Headers.get (parseHeaders ls []).1 "content-length" = some cl →
      parseUsize cl = Option.none →
      Request.new rl ls rest cfg =
        Except.error ParseError.ContentLengthParseError) ∧
    ParseError.ContentLengthParseError ≠ ParseError.BadRequestError ∧
    ParseError.ContentLengthParseError ≠ ParseError.MethodNotAllowedError := by
  refine ⟨?_, ?_, by decide, by decide⟩
  · intro req left hok
    unfold Request.new at hok
    split at hok
    · split at hok
      · cases hok
      · rename_i mth hm
        split at hok
        · cases hok
        · rename_i content left2 hrb
          simp only [Except.ok.injEq, Prod.mk.injEq] at hok
          obtain ⟨rfl, rfl⟩ := hok
          have h := readBody_ok hrb
          refine ⟨fun h0 => h.1 h0, fun cl hcl => ?_⟩
          obtain ⟨n, hn, hle, hc, hlft⟩ := h.2 cl hcl
          exact ⟨n, hn, rest.take n, hc, by
            rw [List.length_take]
            exact Nat.min_eq_left hle, hlft⟩
    · cases hok
  · intro m p v cl hs hm hcl hpu
    unfold Request.new
    split
    · rename_i methodStr path httpVersion heq
      rw [hs] at heq
      obtain ⟨rfl, rfl, rfl⟩ : m = methodStr ∧ p = path ∧ v = httpVersion := by
        simpa using heq
      cases hmm : Method.fromStr m with
      | none =>
        rw [hmm] at hm
        simp at hm
      | some mth =>
        have hrb : readBody (parseHeaders ls []).1 rest =
            Except.error ParseError.ContentLengthParseError := by
          unfold readBody
          rw [hcl]
          simp [hpu]
        rw [hrb]
    · rename_i hne
      exact absurd hs (hne m p v)

/-- C6 witness: a request with `Content-Length: 3` and stream `[1,2,3,4]`
reads the 3-byte body `[1,2,3]` leaving `[4]`; `Content-Length: xyz` makes
parsing fail with `ContentLengthParseError`. -/
theorem c6_body_iff_content_length_witness :
    (∃ n, parseUsize "3" = some n ∧ ∃ b,
      ({ config := ⟨Option.none⟩, http_version := "HTTP/1.1\r\n",
         headers := [("content-length", "3")], method := Method.POST,
         path := "/", content := some [1, 2, 3] } : Request).content = some b ∧
      b.length = n ∧ ([4] : Bytes) = ([1, 2, 3, 4] : Bytes).drop n) ∧
    Request.new "POST / HTTP/1.1\r\n" ["Content-Length: xyz", ""] []
        ⟨Option.none⟩ =
      Except.error ParseError.ContentLengthParseError :=
  ⟨((c6_body_iff_content_length "POST / HTTP/1.1\r\n" ["Content-Length: 3", ""]
      [1, 2, 3, 4] ⟨Option.none⟩).1
      { config := ⟨Option.none⟩, http_version := "HTTP/1.1\r\n",
        headers := [("content-length", "3")], method := Method.POST,
        path := "/", content := some [1, 2, 3] } [4] (by decide)).2
      "3" (by decide),
   (c6_body_iff_content_length "POST / HTTP/1.1\r\n" ["Content-Length: xyz", ""]
      [] ⟨Option.none⟩).2.1 "POST" "/" "HTTP/1.1\r\n" "xyz"
      (by decide) (by decide) (by decide) (by decide)⟩

/-- C2: for every request, the status, body, and content type of the
response produced by `Request.handle` are exactly those given by the
routing table of spec §4.2, with the patterns tested in the fixed priority
order `/` exact, `/echo/` prefix, `/user-agent` prefix, `/files/` prefix,
then no-match, first match winning. -/
theorem c2_routing_table (r : Request) (fs : FsState) :
    respSummary (Request.handle r fs).1 = routeTableSpec r fs := by
  unfold Request.handle routeTableSpec respSummary
  by_cases h1 : r.path = "/"
  · cases hm : r.method <;> simp [h1, hm, Response.new]
  · cases he : stripPref r.path "/echo/" with
    | some echo =>
      cases hm : r.method <;>
        simp [h1, he, hm, Response.new, Response.text]
    | none =>
      cases hu : stripPref r.path "/user-agent" with
      | some ua =>
        cases hm : r.method
        · cases hua : Headers.get r.headers "user-agent" <;>
            simp [h1, he, hu, hm, hua, Response.new, Response.text]
        · simp [h1, he, hu, hm, Response.new]
      | none =>
        cases hf : stripPref r.path "/files/" with
        | none => simp [h1, he, hu, hf, Response.new]
        | some name =>
          cases hm : r.method
          · cases hd : r.config.files_dir with
            | none => simp [h1, he, hu, hf, hm, hd, Response.new]
            | some dir =>
              cases hr : fs.read (pathPush dir name) <;>
                simp [h1, he, hu, hf, hm, hd, hr, Response.new, Response.binary]
          · cases hd : r.config.files_dir with
            | none => simp [h1, he, hu, hf, hm, hd, Response.new]
            | some dir =>
              cases hc : r.content with
              | none => simp [h1, he, hu, hf, hm, hd, hc, Response.new]
              | some b =>
                by_cases hw : fs.writeOk (pathPush dir name) <;>
                  simp [h1, he, hu, hf, hm, hd, hc, hw, Response.new]

/-- C8: on `/files/`-prefixed paths — with no directory configured, GET
yields `404 Not Found` and POST yields `500 Internal Server Error`, both
without touching the file system; with a directory configured, a GET read
failure yields `404`, a successful GET yields `200 OK` with content type
`application/octet-stream` and the file bytes as body, a POST write
failure yields `500`, and a successful POST yields `201 Created` with no
body. -/
theorem c8_files_routes (r : Request) (fs : FsState) (name : String)
    (h : stripPref r.path "/files/" = some name) :
    (r.config.files_dir = Option.none → r.method = Method.GET →
      Request.handle r fs = (Response.new Status.NotFound, [])) ∧
    (r.config.files_dir = Option.none → r.method = Method.POST →
      Request.handle r fs = (Response.new Status.InternalServerError, [])) ∧
    (∀ dir, r.config.files_dir = some dir → r.method = Method.GET →
      (fs.read (pathPush dir name) = Option.none →
        Request.handle r fs =
          (Response.new Status.NotFound, [FsEffect.read (pathPush dir name)])) ∧
      (∀ c, fs.read (pathPush dir name) = some c →
        (Request.handle r fs).1.status = Status.OK ∧
        (Request.handle r fs).1.content_type = "application/octet-stream" ∧
        (Request.handle r fs).1.content = some c ∧
        (Request.handle r fs).2 = [FsEffect.read (pathPush dir name)])) ∧
    (∀ dir b, r.config.files_dir = some dir → r.method = Method.POST →
      r.content = some b →
      (fs.writeOk (pathPush dir name) = false →
        Request.handle r fs =
          (Response.new Status.InternalServerError,
           [FsEffect.write (pathPush dir name) b])) ∧
      (fs.writeOk (pathPush dir name) = true →
        Request.handle r fs =
          (Response.new Status.Created,
           [FsEffect.write (pathPush dir name) b]))) := by
  have hp : r.path.data = "/files/".data ++ name.data := stripPref_data h
  have h1 : r.path ≠ "/" := files_path_ne_root hp
  have he : stripPref r.path "/echo/" = Option.none := files_path_echo_none hp
  have hu : stripPref r.path "/user-agent" = Option.none :=
    files_path_userAgent_none hp
  refine ⟨?_, ?_, ?_, ?_⟩
  · intro hd hm
    simp [Request.handle, h1, he, hu, h, hd, hm, Response.new]
  · intro hd hm
    simp [Request.handle, h1, he, hu, h, hd, hm, Response.new]
  · intro dir hd hm
    constructor
    · intro hr
      simp [Request.handle, h1, he, hu, h, hd, hm, hr, Response.new]
    · intro c hr
      simp [Request.handle, h1, he, hu, h, hd, hm, hr, Response.binary]
  · intro dir b hd hm hc
    constructor
    · intro hw
      simp [Request.handle, h1, he, hu, h, hd, hm, hc, hw, Response.new]
    · intro hw
      simp [Request.handle, h1, he, hu, h, hd, hm, hc, hw, Response.new]

/-- C8 witness: the four `/files/` behaviors evaluated on concrete
requests — no-directory GET and POST, a successful directory GET of
`/tmp/a.txt`, and a successful directory POST. -/
theorem c8_files_routes_witness :
    Request.handle filesNoDirRequest filesFs = (Response.new Status.NotFound, []) ∧
    Request.handle filesNoDirPostRequest filesFs =
      (Response.new Status.InternalServerError, []) ∧
    ((Request.handle filesGetRequest filesFs).1.status = Status.OK ∧
     (Request.handle filesGetRequest filesFs).1.content_type =
       "application/octet-stream" ∧
     (Request.handle filesGetRequest filesFs).1.content = some [104, 105] ∧
     (Request.handle filesGetRequest filesFs).2 =
       [FsEffect.read (pathPush "/tmp" "a.txt")]) ∧
    Request.handle filesPostRequest filesFs =
      (Response.new Status.Created,
       [FsEffect.write (pathPush "/tmp" "a.txt") [104, 105]]) :=
  ⟨(c8_files_routes filesNoDirRequest filesFs "a.txt" (by decide)).1 rfl rfl,
   (c8_files_routes filesNoDirPostRequest filesFs "a.txt" (by decide)).2.1 rfl rfl,
   ((c8_files_routes filesGetRequest filesFs "a.txt" (by decide)).2.2.1
      "/tmp" rfl rfl).2 [104, 105] (by decide),
   ((c8_files_routes filesPostRequest filesFs "a.txt" (by decide)).2.2.2
      "/tmp" [104, 105] rfl rfl rfl).2 rfl⟩

/-- C10: a POST to a `/files/`-prefixed path with a directory configured
but no request body performs no file-system operation at all and still
returns `201 Created`. -/
theorem c10_post_without_body_writes_nothing (r : Request) (fs : FsState)
    (name dir : String) (h : stripPref r.path "/files/" = some name)
    (hm : r.method = Method.POST) (hd : r.config.files_dir = some dir)
    (hc : r.content = Option.none) :
    Request.handle r fs = (Response.new Status.Created, []) := by
  have hp : r.path.data = "/files/".data ++ name.data := stripPref_data h
  have h1 : r.path ≠ "/" := files_path_ne_root hp
  have he : stripPref r.path "/echo/" = Option.none := files_path_echo_none hp
  have hu : stripPref r.path "/user-agent" = Option.none :=
    files_path_userAgent_none hp
  simp [Request.handle, h1, he, hu, h, hm, hd, hc]

/-- C10 witness: the body-less `POST /files/b.txt` with directory `/tmp`
yields `201 Created` and an empty effect list. -/
theorem c10_post_without_body_writes_nothing_witness :
    Request.handle filesPostNoBodyRequest filesFs =
      (Response.new Status.Created, []) :=
  c10_post_without_body_writes_nothing filesPostNoBodyRequest filesFs
    "b.txt" "/tmp" (by decide) rfl rfl rfl

end HttpSrv
